import Mathlib

/-!
Shallow embedding of the Openpilot-Deepdive planning baseline (src/main.py):
the `PlanningBaselineV0` Lightning module, its constructor configuration, its
command-line argument surface, and the training and validation steps.

Tensors are embedded as nested lists over ℚ (a batch of predictions is
`List (List ...)` with the batch along the outer list).  `torch.argmax` and
`torch.argmin` are embedded as first-occurrence argmax/argmin, matching the
documented PyTorch behaviour of returning the index of the first extremal
value.  The network `PlaningNetwork` and the loss module
`MultipleTrajectoryPredictionLoss` live in model.py, which is not among the
sources; the training step is therefore parameterised by the loss function it
calls, and the angle distance of the loss is modelled from the spec where a
claim needs it.
-/

set_option maxHeartbeats 1000000

namespace OpenpilotDeepdive

/-- A 3D trajectory point: forward, lateral and vertical coordinates. -/
structure Pt where
  x : ℚ
  y : ℚ
  z : ℚ
  deriving DecidableEq, Repr

/-- Squared difference of two rationals. -/
def sq (q : ℚ) : ℚ := q * q

/-- Elementwise squared error between two points, summed over the 3 axes.
This is `F.mse_loss(·, ·, reduction='none')` followed by the sum over the
coordinate axis. -/
def sqDistPt (a b : Pt) : ℚ := sq (a.x - b.x) + sq (a.y - b.y) + sq (a.z - b.z)

/-- Sum of squared differences between two trajectories over all points and
axes: `F.mse_loss(pred, gt, reduction='none').sum(dim=(2, 3))` for one
(example, hypothesis) pair in main.py line 85. -/
def sqDistTraj (a b : List Pt) : ℚ := (List.zipWith sqDistPt a b).sum

/-- Minimum of `a` and all elements of the list. -/
def minFrom {α : Type} [LinearOrder α] (a : α) : List α → α
  | [] => a
  | b :: l => minFrom (min a b) l

/-- Maximum of `a` and all elements of the list. -/
def maxFrom {α : Type} [LinearOrder α] (a : α) : List α → α
  | [] => a
  | b :: l => maxFrom (max a b) l

/-- Index of the first occurrence of the minimal value of a list
(`torch.argmin(·, -1)` along the last axis; 0 on the empty list). -/
def argminIdx {α : Type} [LinearOrder α] : List α → ℕ
  | [] => 0
  | [_] => 0
  | a :: b :: l => if minFrom b l < a then argminIdx (b :: l) + 1 else 0

/-- Index of the first occurrence of the maximal value of a list
(`torch.argmax(·, -1)` along the last axis; 0 on the empty list). -/
def argmaxIdx {α : Type} [LinearOrder α] : List α → ℕ
  | [] => 0
  | [_] => 0
  | a :: b :: l => if a < maxFrom b l then argmaxIdx (b :: l) + 1 else 0

/-- Row of per-hypothesis distances of one example: each of the M predicted
trajectories against the (broadcast) ground truth, main.py lines 84-85. -/
def hypothesisDistances (hyps : List (List Pt)) (gt : List Pt) : List ℚ :=
  hyps.map (fun h => sqDistTraj h gt)

/-- Ground-truth best-match index of one example: `torch.argmin` over that
example's row of the `l2_distances` matrix, main.py line 86. -/
def bestMatch (hyps : List (List Pt)) (gt : List Pt) : ℕ :=
  argminIdx (hypothesisDistances hyps gt)

/-- Total number of scalar elements of a batch of trajectories, the divisor
of `F.mse_loss` with the default mean reduction. -/
def numel (labels : List (List Pt)) : ℕ := (labels.map (fun t => 3 * t.length)).sum

/-- The two scalars logged by `validation_step`, main.py line 89. -/
structure ValMetrics where
  l2_dist : ℚ
  cls_acc : ℚ
  deriving DecidableEq, Repr

/-- The metric computation of `PlanningBaselineV0.validation_step`
(main.py lines 74-87) on the network outputs `pred_cls` (B×M logits),
`pred_trajectory` (B×M trajectories of `num_pts` points) and the ground
truth `labels` (B trajectories). -/
def validation_step (pred_cls : List (List ℚ)) (pred_trajectory : List (List (List Pt)))
    (labels : List (List Pt)) : ValMetrics :=
  let bs := pred_cls.length
  let pred_label := pred_cls.map argmaxIdx
  let pred_trajectory_single :=
    List.zipWith (fun hyps i => hyps.getD i []) pred_trajectory pred_label
  let l2_dist := (List.zipWith sqDistTraj pred_trajectory_single labels).sum / (numel labels : ℚ)
  let best_match := List.zipWith bestMatch pred_trajectory labels
  let cls_acc :=
    (((List.zipWith (fun b p => if b = p then (1 : ℕ) else 0) best_match pred_label).sum : ℕ) : ℚ)
      / (bs : ℚ)
  ⟨l2_dist, cls_acc⟩

/-- The per-axis regression loss returned by the MTP loss: a 3-vector, one
value per coordinate axis. -/
structure RegLoss where
  rx : ℚ
  ry : ℚ
  rz : ℚ
  deriving DecidableEq, Repr

/-- Mean of the 3-vector regression loss, `reg_loss.mean()` in main.py line 63. -/
def RegLoss.mean (r : RegLoss) : ℚ := (r.rx + r.ry + r.rz) / 3

/-- Type of the loss callable `self.mtp_loss`: from (pred_cls, pred_trajectory,
labels) to (classification loss, per-axis regression loss). -/
def MtpLossFn : Type :=
  List (List ℚ) → List (List (List Pt)) → List (List Pt) → ℚ × RegLoss

/-- The tensor accesses of the plotting branch of `training_step`
(main.py lines 50-57): hypotheses 0, 1 and 2 of example 0 of
`pred_trajectory` and of `pred_cls`, and example 0 of `labels`.
Out-of-bounds indexing raises, embedded as `none`. -/
def plotAccess (pred_cls : List (List ℚ)) (pred_trajectory : List (List (List Pt)))
    (labels : List (List Pt)) : Option Unit := do
  let row ← pred_trajectory[0]?
  let _ ← row[0]?
  let _ ← row[1]?
  let _ ← row[2]?
  let cls_row ← pred_cls[0]?
  let _ ← cls_row[0]?
  let _ ← cls_row[1]?
  let _ ← cls_row[2]?
  let _ ← labels[0]?
  pure ()

/-- `PlanningBaselineV0.training_step` (main.py lines 39-63), parameterised by
the loss callable `self.mtp_loss` and taking the network outputs in place of
running `self.net`.  On every `batch_idx` divisible by 10 it runs the plotting
branch, whose out-of-bounds indexing makes the whole step fail (`none`);
otherwise it returns `cls_loss + self.mtp_alpha * reg_loss.mean()`. -/
def training_step (mtp_alpha : ℚ) (mtp_loss : MtpLossFn)
    (pred_cls : List (List ℚ)) (pred_trajectory : List (List (List Pt)))
    (labels : List (List Pt)) (batch_idx : ℕ) : Option ℚ :=
  let cls_loss := (mtp_loss pred_cls pred_trajectory labels).1
  let reg_loss := (mtp_loss pred_cls pred_trajectory labels).2
  if batch_idx % 10 = 0 then
    match plotAccess pred_cls pred_trajectory labels with
    | some _ => some (cls_loss + mtp_alpha * reg_loss.mean)
    | none => none
  else
    some (cls_loss + mtp_alpha * reg_loss.mean)

/-- Construction-time configuration of `MultipleTrajectoryPredictionLoss`
as instantiated in main.py line 25 (the module itself lives in model.py). -/
structure MultipleTrajectoryPredictionLoss where
  mtp_alpha : ℚ
  M : ℕ
  num_pts : ℕ
  distance_type : String
  deriving DecidableEq, Repr

/-- The fields of `PlanningBaselineV0` set by its constructor. -/
structure PlanningBaselineV0 where
  M : ℕ
  num_pts : ℕ
  mtp_alpha : ℚ
  lr : ℚ
  mtp_loss : MultipleTrajectoryPredictionLoss
  deriving DecidableEq, Repr

/-- `PlanningBaselineV0.__init__` (main.py lines 17-25): stores the four
arguments and builds the loss with the hard-coded `distance_type='angle'`. -/
def PlanningBaselineV0.init (M num_pts : ℕ) (mtp_alpha lr : ℚ) : PlanningBaselineV0 :=
  ⟨M, num_pts, mtp_alpha, lr, ⟨mtp_alpha, M, num_pts, "angle"⟩⟩

/-- `PlanningBaselineV0.add_model_specific_args` (main.py lines 27-33):
the option names this method adds to the parser it is given. -/
def add_model_specific_args (parent_parser_args : List String) : List String :=
  parent_parser_args ++ ["--M", "--num_pts", "--mtp_alpha"]

/-- The repository-defined command-line options of main.py (lines 94-100):
the three options added in `__main__` plus the model-specific ones.  The
framework options of `pl.Trainer.add_argparse_args` are external. -/
def main_parser_args : List String :=
  add_model_specific_args ["--batch_size", "--lr", "--n_workers"]

/-- State visible to `validation_step`: the module fields and the metric log
kept by the external Lightning logger that `self.log_dict` appends to. -/
structure FullState where
  module : PlanningBaselineV0
  logger : List (String × ℚ)
  deriving DecidableEq, Repr

/-- `validation_step` as a state transformer: it computes the metrics from the
batch and appends them to the logger via `self.log_dict` (main.py line 89);
no field of the module is written. -/
def validation_step_full (s : FullState) (pred_cls : List (List ℚ))
    (pred_trajectory : List (List (List Pt))) (labels : List (List Pt)) : FullState :=
  let mets := validation_step pred_cls pred_trajectory labels
  ⟨s.module, s.logger ++ [("val/l2_dist", mets.l2_dist), ("val/cls_acc", mets.cls_acc)]⟩

/-- Modelled from the spec: the heading angle of a trajectory point in the
horizontal plane, used by the angle mode of the trajectory distance metric of
`MultipleTrajectoryPredictionLoss` (model.py is not among the sources; spec
section 4.1).  Convention: the heading of each point relative to the origin,
the arctangent of lateral over forward coordinate. -/
noncomputable def heading (p : Pt) : ℝ := Real.arctan ((p.y : ℝ) / (p.x : ℝ))

/-- Modelled from the spec: the angle-mode trajectory distance of the MTP
loss (spec section 4.1): the sum of squared heading differences between the
two trajectories. -/
noncomputable def angleDistTraj (a b : List Pt) : ℝ :=
  (List.zipWith (fun p q => (heading p - heading q) ^ 2) a b).sum

/-- Modelled from the spec: the Best-Hypothesis Selector of the loss as
configured in this program (spec section 4.2 with the configured
`distance_type='angle'`): the first-occurrence argmin of the per-hypothesis
angle distances to the ground truth. -/
noncomputable def angleBestMatch (hyps : List (List Pt)) (gt : List Pt) : ℕ :=
  argminIdx (hyps.map (fun h => angleDistTraj h gt))

/-- Concrete ground-truth trajectory: two points straight ahead. -/
def exGt : List Pt := [⟨1, 0, 0⟩, ⟨2, 0, 0⟩]

/-- Concrete hypothesis 0: close to the ground truth in L2 but with a
different heading at the first point. -/
def exHyp0 : List Pt := [⟨1, 1, 0⟩, ⟨2, 0, 0⟩]

/-- Concrete hypothesis 1: far from the ground truth in L2 but with exactly
the ground-truth headings. -/
def exHyp1 : List Pt := [⟨10, 0, 0⟩, ⟨20, 0, 0⟩]

/-- Concrete two-hypothesis prediction for one example. -/
def exHyps : List (List Pt) := [exHyp0, exHyp1]

/-- Concrete one-example confidence batch with M = 2, used to instantiate
hypotheses of the proved theorems. -/
def wCls : List (List ℚ) := [[0, 1]]

/-- Concrete one-example trajectory batch with M = 2 and num_pts = 1. -/
def wTraj : List (List (List Pt)) := [[[⟨0, 0, 0⟩], [⟨1, 0, 0⟩]]]

/-- Concrete one-example ground-truth batch with num_pts = 1. -/
def wLabels : List (List Pt) := [[⟨1, 0, 0⟩]]

/-- Concrete one-example confidence batch with M = 3. -/
def wCls3 : List (List ℚ) := [[0, 0, 1]]

/-- Concrete one-example trajectory batch with M = 3 and num_pts = 1. -/
def wTraj3 : List (List (List Pt)) := [[[⟨0, 0, 0⟩], [⟨1, 0, 0⟩], [⟨2, 0, 0⟩]]]

/-- A concrete loss callable standing in for `self.mtp_loss`. -/
def wLoss : MtpLossFn := fun _ _ _ => (1, ⟨2, 2, 2⟩)

/-- A concrete module-plus-logger state. -/
def wState : FullState := ⟨PlanningBaselineV0.init 3 20 1 1, []⟩

/-!  Lemmas about `minFrom` and the first-occurrence `argminIdx`. -/

theorem minFrom_cons {α : Type} [LinearOrder α] :
    ∀ (l : List α) (a b : α), minFrom (min a b) l = min a (minFrom b l)
  | [], a, b => rfl
  | c :: l, a, b => by
    have h1 : minFrom (min (min a b) c) l = minFrom (min a (min b c)) l := by
      rw [min_assoc]
    calc minFrom (min a b) (c :: l) = minFrom (min (min a b) c) l := rfl
      _ = minFrom (min a (min b c)) l := h1
      _ = min a (minFrom (min b c) l) := minFrom_cons l a (min b c)
      _ = min a (minFrom b (c :: l)) := rfl

theorem minFrom_le_self {α : Type} [LinearOrder α] :
    ∀ (l : List α) (a : α), minFrom a l ≤ a
  | [], a => le_refl a
  | b :: l, a => by
    calc minFrom a (b :: l) = minFrom (min a b) l := rfl
      _ ≤ min a b := minFrom_le_self l (min a b)
      _ ≤ a := min_le_left a b

theorem minFrom_le_of_mem {α : Type} [LinearOrder α] :
    ∀ (l : List α) (a x : α), x ∈ l → minFrom a l ≤ x
  | b :: l, a, x, hx => by
    rcases List.mem_cons.mp hx with h | h
    · subst h
      calc minFrom a (x :: l) = minFrom (min a x) l := rfl
        _ ≤ min a x := minFrom_le_self l (min a x)
        _ ≤ x := min_le_right a x
    · calc minFrom a (b :: l) = minFrom (min a b) l := rfl
        _ = min a (minFrom b l) := minFrom_cons l a b
        _ ≤ minFrom b l := min_le_right _ _
        _ ≤ x := minFrom_le_of_mem l b x h

theorem minFrom_le_cons_mem {α : Type} [LinearOrder α] (l : List α) (a x : α)
    (hx : x ∈ a :: l) : minFrom a l ≤ x := by
  rcases List.mem_cons.mp hx with h | h
  · subst h; exact minFrom_le_self l x
  · exact minFrom_le_of_mem l a x h

theorem argminIdx_lt_length {α : Type} [LinearOrder α] :
    ∀ (l : List α), l ≠ [] → argminIdx l < l.length
  | [], h => absurd rfl h
  | [_], _ => by simp [argminIdx]
  | a :: b :: l, _ => by
    by_cases h : minFrom b l < a
    · have ih := argminIdx_lt_length (b :: l) (by simp)
      simp only [List.length_cons] at ih
      simp only [argminIdx, if_pos h, List.length_cons]
      omega
    · simp only [argminIdx, if_neg h, List.length_cons]
      omega

theorem getD_argminIdx {α : Type} [LinearOrder α] (d : α) :
    ∀ (a : α) (l : List α), (a :: l).getD (argminIdx (a :: l)) d = minFrom a l
  | a, [] => by simp [argminIdx, minFrom]
  | a, b :: l => by
    have hmin : minFrom a (b :: l) = min a (minFrom b l) := minFrom_cons l a b
    by_cases h : minFrom b l < a
    · have ih := getD_argminIdx d b l
      simp only [argminIdx, if_pos h, List.getD_cons_succ]
      rw [ih, hmin, min_eq_right (le_of_lt h)]
    · simp only [argminIdx, if_neg h, List.getD_cons_zero]
      rw [hmin, min_eq_left (not_lt.mp h)]

theorem argminIdx_le_of_getD_le {α : Type} [LinearOrder α] (d : α) :
    ∀ (a : α) (l : List α) (j : ℕ), j < (a :: l).length →
      (a :: l).getD j d ≤ minFrom a l → argminIdx (a :: l) ≤ j
  | _, [], _, _, _ => by simp [argminIdx]
  | a, b :: l, 0, _, hle => by
    have hmin : minFrom a (b :: l) = min a (minFrom b l) := minFrom_cons l a b
    have ha : a ≤ minFrom b l := by
      have := hle
      rw [List.getD_cons_zero, hmin] at this
      exact le_trans this (min_le_right a _)
    simp [argminIdx, not_lt.mpr ha]
  | a, b :: l, j + 1, hj, hle => by
    by_cases h : minFrom b l < a
    · have hmin : minFrom a (b :: l) = min a (minFrom b l) := minFrom_cons l a b
      have hle2 : (b :: l).getD j d ≤ minFrom b l := by
        have := hle
        rw [List.getD_cons_succ, hmin] at this
        exact le_trans this (min_le_right a _)
      have ih := argminIdx_le_of_getD_le d b l j (by simpa using Nat.lt_of_succ_lt_succ hj) hle2
      simp only [argminIdx, if_pos h]
      omega
    · simp only [argminIdx, if_neg h]
      omega

theorem getD_map_of_lt {α β : Type} (f : α → β) (l : List α) (j : ℕ)
    (hj : j < l.length) (d : α) (e : β) :
    (l.map f).getD j e = f (l.getD j d) := by
  rw [List.getD_eq_getElem _ _ (by simpa using hj), List.getD_eq_getElem _ _ hj,
    List.getElem_map]

theorem argminIdx_spec {α : Type} [LinearOrder α] (l : List α) (d : α) (j : ℕ)
    (hne : l ≠ []) (hj : j < l.length) :
    l.getD (argminIdx l) d ≤ l.getD j d ∧
      (l.getD j d ≤ l.getD (argminIdx l) d → argminIdx l ≤ j) := by
  cases l with
  | nil => exact absurd rfl hne
  | cons a t =>
    have hval : (a :: t).getD (argminIdx (a :: t)) d = minFrom a t := getD_argminIdx d a t
    have hmem : (a :: t).getD j d ∈ a :: t := by
      rw [List.getD_eq_getElem _ _ hj]
      exact List.getElem_mem hj
    constructor
    · rw [hval]
      exact minFrom_le_cons_mem t a _ hmem
    · intro hle
      rw [hval] at hle
      exact argminIdx_le_of_getD_le d a t j hj hle

/-!  Unfolding lemmas for the two metrics of `validation_step`. -/

theorem validation_step_cls_acc_def (c : List (List ℚ)) (t : List (List (List Pt)))
    (l : List (List Pt)) :
    (validation_step c t l).cls_acc
      = (((List.zipWith (fun b p => if b = p then (1 : ℕ) else 0)
            (List.zipWith bestMatch t l) (c.map argmaxIdx)).sum : ℕ) : ℚ) / (c.length : ℚ) := rfl

theorem validation_step_l2_dist_def (c : List (List ℚ)) (t : List (List (List Pt)))
    (l : List (List Pt)) :
    (validation_step c t l).l2_dist
      = (List.zipWith sqDistTraj
            (List.zipWith (fun hyps i => hyps.getD i []) t (c.map argmaxIdx)) l).sum
          / (numel l : ℚ) := rfl

theorem cls_match_sum (c : List (List ℚ)) :
    ∀ (t : List (List (List Pt))) (l : List (List Pt)),
      t.length = c.length → l.length = c.length →
      (List.zipWith (fun b p => if b = p then (1 : ℕ) else 0)
          (List.zipWith bestMatch t l) (c.map argmaxIdx)).sum
        = ∑ i ∈ Finset.range c.length,
            if bestMatch (t.getD i []) (l.getD i []) = argmaxIdx (c.getD i []) then 1 else 0 := by
  induction c with
  | nil => intro t l ht hl; simp
  | cons c0 c2 ih =>
    intro t l ht hl
    cases t with
    | nil => simp at ht
    | cons t0 t2 =>
      cases l with
      | nil => simp at hl
      | cons l0 l2 =>
        simp only [List.length_cons] at ht hl
        simp only [List.map_cons, List.zipWith_cons_cons, List.sum_cons, List.length_cons]
        rw [Finset.sum_range_succ']
        simp only [List.getD_cons_succ, List.getD_cons_zero]
        rw [ih t2 l2 (by omega) (by omega)]
        omega

theorem l2_single_sum (c : List (List ℚ)) :
    ∀ (t : List (List (List Pt))) (l : List (List Pt)),
      t.length = c.length → l.length = c.length →
      (List.zipWith sqDistTraj
          (List.zipWith (fun hyps i => hyps.getD i []) t (c.map argmaxIdx)) l).sum
        = ∑ i ∈ Finset.range c.length,
            sqDistTraj ((t.getD i []).getD (argmaxIdx (c.getD i [])) []) (l.getD i []) := by
  induction c with
  | nil => intro t l ht hl; simp
  | cons c0 c2 ih =>
    intro t l ht hl
    cases t with
    | nil => simp at ht
    | cons t0 t2 =>
      cases l with
      | nil => simp at hl
      | cons l0 l2 =>
        simp only [List.length_cons] at ht hl
        simp only [List.map_cons, List.zipWith_cons_cons, List.sum_cons, List.length_cons]
        rw [Finset.sum_range_succ']
        simp only [List.getD_cons_succ, List.getD_cons_zero]
        rw [ih t2 l2 (by omega) (by omega)]
        ring

theorem numel_uniform (n : ℕ) :
    ∀ (l : List (List Pt)), (∀ tr ∈ l, tr.length = n) → numel l = l.length * (3 * n) := by
  intro l
  induction l with
  | nil => intro _; simp [numel]
  | cons x l2 ih =>
    intro h
    have hx : x.length = n := h x (List.mem_cons_self x l2)
    have ht := ih (fun tr htr => h tr (List.mem_cons_of_mem x htr))
    simp only [numel, List.map_cons, List.sum_cons, List.length_cons] at *
    rw [hx, ht]
    ring

theorem training_step_some_eq (mtp_alpha : ℚ) (mtp_loss : MtpLossFn)
    (c : List (List ℚ)) (t : List (List (List Pt))) (l : List (List Pt))
    (batch_idx : ℕ) (v : ℚ)
    (h : training_step mtp_alpha mtp_loss c t l batch_idx = some v) :
    v = (mtp_loss c t l).1 + mtp_alpha * (mtp_loss c t l).2.mean := by
  unfold training_step at h
  by_cases hp : batch_idx % 10 = 0
  · rw [if_pos hp] at h
    cases hacc : plotAccess c t l with
    | none => rw [hacc] at h; simp at h
    | some u => rw [hacc] at h; simp at h; exact h.symm
  · rw [if_neg hp] at h
    simp at h
    exact h.symm

theorem plotAccess_eq (c : List (List ℚ)) (t : List (List (List Pt)))
    (l : List (List Pt)) (hB : t ≠ []) (hcB : c ≠ []) (hlB : l ≠ []) :
    plotAccess c t l
      = if 3 ≤ (t.getD 0 []).length ∧ 3 ≤ (c.getD 0 []).length then some () else none := by
  cases t with
  | nil => exact absurd rfl hB
  | cons r t2 =>
    cases c with
    | nil => exact absurd rfl hcB
    | cons cr c2 =>
      cases l with
      | nil => exact absurd rfl hlB
      | cons g l2 =>
        simp only [List.getD_cons_zero]
        by_cases hr : 3 ≤ r.length
        · by_cases hc : 3 ≤ cr.length
          · rw [if_pos ⟨hr, hc⟩]
            have e0 : r[0]? = some (r.getD 0 []) := by
              rw [List.getElem?_eq_getElem (by omega), List.getD_eq_getElem _ _ (by omega)]
            have e1 : r[1]? = some (r.getD 1 []) := by
              rw [List.getElem?_eq_getElem (by omega), List.getD_eq_getElem _ _ (by omega)]
            have e2 : r[2]? = some (r.getD 2 []) := by
              rw [List.getElem?_eq_getElem (by omega), List.getD_eq_getElem _ _ (by omega)]
            have f0 : cr[0]? = some (cr.getD 0 0) := by
              rw [List.getElem?_eq_getElem (by omega), List.getD_eq_getElem _ _ (by omega)]
            have f1 : cr[1]? = some (cr.getD 1 0) := by
              rw [List.getElem?_eq_getElem (by omega), List.getD_eq_getElem _ _ (by omega)]
            have f2 : cr[2]? = some (cr.getD 2 0) := by
              rw [List.getElem?_eq_getElem (by omega), List.getD_eq_getElem _ _ (by omega)]
            simp only [plotAccess, List.getElem?_cons_zero, Option.bind_eq_bind,
              Option.some_bind, e0, e1, e2, f0, f1, f2]
            rfl
          · rw [if_neg (by tauto)]
            have f2 : cr[2]? = none := List.getElem?_eq_none (by omega)
            cases h0 : cr[0]? <;> cases h1 : cr[1]? <;>
              cases e0 : r[0]? <;> cases e1 : r[1]? <;> cases e2 : r[2]? <;>
              simp only [plotAccess, List.getElem?_cons_zero, Option.bind_eq_bind,
                Option.some_bind, Option.none_bind, h0, h1, f2, e0, e1, e2]
        · rw [if_neg (by tauto)]
          have e2 : r[2]? = none := List.getElem?_eq_none (by omega)
          cases e0 : r[0]? <;> cases e1 : r[1]? <;>
            simp only [plotAccess, List.getElem?_cons_zero, Option.bind_eq_bind,
              Option.some_bind, Option.none_bind, e0, e1, e2]

theorem angleDistTraj_exHyp1 : angleDistTraj exHyp1 exGt = 0 := by
  simp [angleDistTraj, heading, exHyp1, exGt]

theorem angleDistTraj_exHyp0 : 0 < angleDistTraj exHyp0 exGt := by
  have h1 : ((1 : ℚ) : ℝ) / ((1 : ℚ) : ℝ) = 1 := by norm_num
  have h0 : ((0 : ℚ) : ℝ) / ((1 : ℚ) : ℝ) = 0 := by norm_num
  have h02 : ((0 : ℚ) : ℝ) / ((2 : ℚ) : ℝ) = 0 := by norm_num
  simp only [angleDistTraj, heading, exHyp0, exGt, List.zipWith_cons_cons,
    List.zipWith_nil_right, List.sum_cons, List.sum_nil, h1, h0, h02]
  rw [Real.arctan_one, Real.arctan_zero]
  have hpi : (0 : ℝ) < Real.pi / 4 := by positivity
  nlinarith [sq_nonneg (Real.pi / 4)]

theorem angleBestMatch_ex : angleBestMatch exHyps exGt = 1 := by
  have h0 := angleDistTraj_exHyp0
  have h1 := angleDistTraj_exHyp1
  simp only [angleBestMatch, exHyps, List.map_cons, List.map_nil, argminIdx, minFrom]
  rw [if_pos (by rw [h1]; exact h0)]

theorem bestMatch_ex : bestMatch exHyps exGt = 0 := by
  simp [bestMatch, hypothesisDistances, exHyps, exHyp0, exHyp1, exGt, sqDistTraj,
    sqDistPt, sq, argminIdx, minFrom]
  norm_num

theorem zipWith_sum_le_length {α β : Type} (f : α → β → ℕ) (hf : ∀ a b, f a b ≤ 1) :
    ∀ (l1 : List α) (l2 : List β), (List.zipWith f l1 l2).sum ≤ l2.length
  | [], l2 => by simp
  | _ :: _, [] => by simp
  | a :: l1, b :: l2 => by
    simp only [List.zipWith_cons_cons, List.sum_cons, List.length_cons]
    have ih := zipWith_sum_le_length f hf l1 l2
    have hab := hf a b
    omega

/-!  The claims. -/

/-- C1: for every batch, the value returned by `training_step` (the combined
training objective) equals `cls_loss + mtp_alpha * reg_loss.mean()` where
`(cls_loss, reg_loss)` is the pair returned by the MTP loss on that batch
(main.py lines 43 and 63). -/
theorem training_step_returns_combined_objective (mtp_alpha : ℚ) (mtp_loss : MtpLossFn)
    (pred_cls : List (List ℚ)) (pred_trajectory : List (List (List Pt)))
    (labels : List (List Pt)) (batch_idx : ℕ) (v : ℚ)
    (h : training_step mtp_alpha mtp_loss pred_cls pred_trajectory labels batch_idx = some v) :
    v = (mtp_loss pred_cls pred_trajectory labels).1
        + mtp_alpha * (mtp_loss pred_cls pred_trajectory labels).2.mean :=
  training_step_some_eq _ _ _ _ _ _ _ h

/-- Witness for C1 at a concrete batch with `batch_idx = 1`. -/
theorem training_step_returns_combined_objective_witness :
    (3 : ℚ) = (wLoss wCls wTraj wLabels).1 + 1 * (wLoss wCls wTraj wLabels).2.mean :=
  training_step_returns_combined_objective 1 wLoss wCls wTraj wLabels 1 3
    (by norm_num [training_step, wLoss, RegLoss.mean])

/-- C2 counterexample: a concrete batch on which the validation metric's
best-match index (L2 selector, main.py lines 84-86) differs from the index the
loss's Best-Hypothesis Selector returns under its configured
`distance_type='angle'`: the selectors are not the same function. -/
theorem validation_selector_ne_angle_selector_cex :
    bestMatch exHyps exGt ≠ angleBestMatch exHyps exGt := by
  rw [bestMatch_ex, angleBestMatch_ex]
  decide

/-- C2 (amended): the loss is constructed with the hard-coded
`distance_type='angle'`, while the validation metric's best-match index is
computed with the L2 (summed squared error) selector `bestMatch`; the two
winner-selection functions differ — there are batches on which they return
different indices. -/
theorem selector_configured_angle_differs_from_validation :
    (∀ M num_pts mtp_alpha lr,
        (PlanningBaselineV0.init M num_pts mtp_alpha lr).mtp_loss.distance_type = "angle")
      ∧ ∃ hyps gt, bestMatch hyps gt ≠ angleBestMatch hyps gt :=
  ⟨fun _ _ _ _ => rfl,
    ⟨exHyps, exGt, by rw [bestMatch_ex, angleBestMatch_ex]; decide⟩⟩

/-- C3: for every non-empty batch, `cls_acc` equals the number of examples
whose predicted winner index (argmax of confidence) equals the ground-truth
best-match index, divided by the batch size (main.py line 87). -/
theorem validation_cls_acc_is_match_fraction (pred_cls : List (List ℚ))
    (pred_trajectory : List (List (List Pt))) (labels : List (List Pt))
    (ht : pred_trajectory.length = pred_cls.length) (hl : labels.length = pred_cls.length)
    (_hbs : 0 < pred_cls.length) :
    (validation_step pred_cls pred_trajectory labels).cls_acc
      = (((Finset.range pred_cls.length).filter
            (fun i => bestMatch (pred_trajectory.getD i []) (labels.getD i [])
              = argmaxIdx (pred_cls.getD i []))).card : ℚ) / (pred_cls.length : ℚ) := by
  rw [validation_step_cls_acc_def, cls_match_sum _ _ _ ht hl]
  congr 1
  exact_mod_cast (Finset.card_filter _ _).symm

/-- Witness for C3 at a concrete one-example batch. -/
theorem validation_cls_acc_is_match_fraction_witness :
    (validation_step wCls wTraj wLabels).cls_acc
      = (((Finset.range wCls.length).filter
            (fun i => bestMatch (wTraj.getD i []) (wLabels.getD i [])
              = argmaxIdx (wCls.getD i []))).card : ℚ) / (wCls.length : ℚ) :=
  validation_cls_acc_is_match_fraction wCls wTraj wLabels rfl rfl (by decide)

/-- C4: the validation metric's predicted winner index is the per-example
argmax of the predicted confidence, and `l2_dist` is one scalar equal to the
mean over the batch and over all points and axes of the squared differences
between the predicted-winner trajectories and the ground truth, with no
per-axis weighting (main.py lines 77-81). -/
theorem validation_l2_dist_is_mean_squared_error (pred_cls : List (List ℚ))
    (pred_trajectory : List (List (List Pt))) (labels : List (List Pt)) (num_pts : ℕ)
    (ht : pred_trajectory.length = pred_cls.length) (hl : labels.length = pred_cls.length)
    (hshape : ∀ tr ∈ labels, tr.length = num_pts) :
    (validation_step pred_cls pred_trajectory labels).l2_dist
      = (∑ i ∈ Finset.range pred_cls.length,
            sqDistTraj ((pred_trajectory.getD i []).getD (argmaxIdx (pred_cls.getD i [])) [])
              (labels.getD i []))
          / ((pred_cls.length : ℚ) * (num_pts : ℚ) * 3) := by
  rw [validation_step_l2_dist_def, l2_single_sum _ _ _ ht hl]
  congr 1
  rw [numel_uniform num_pts labels hshape, hl]
  push_cast
  ring

/-- Witness for C4 at a concrete one-example batch with `num_pts = 1`. -/
theorem validation_l2_dist_is_mean_squared_error_witness :
    (validation_step wCls wTraj wLabels).l2_dist
      = (∑ i ∈ Finset.range wCls.length,
            sqDistTraj ((wTraj.getD i []).getD (argmaxIdx (wCls.getD i [])) [])
              (wLabels.getD i []))
          / ((wCls.length : ℚ) * ((1 : ℕ) : ℚ) * 3) :=
  validation_l2_dist_is_mean_squared_error wCls wTraj wLabels 1 rfl rfl (by decide)

/-- C5: for every example, the best-match index returned by the validation
metric's selector has summed squared distance to the ground truth at most the
distance of every other hypothesis, and an index whose distance ties the
minimum is never smaller than the returned index (first-occurrence argmin,
main.py line 86). -/
theorem bestMatch_min_distance_and_stable (hyps : List (List Pt)) (gt : List Pt) (j : ℕ)
    (hne : hyps ≠ []) (hj : j < hyps.length) :
    sqDistTraj (hyps.getD (bestMatch hyps gt) []) gt ≤ sqDistTraj (hyps.getD j []) gt ∧
      (sqDistTraj (hyps.getD j []) gt = sqDistTraj (hyps.getD (bestMatch hyps gt) []) gt →
        bestMatch hyps gt ≤ j) := by
  have hlen : (hypothesisDistances hyps gt).length = hyps.length := by
    simp [hypothesisDistances]
  have hne2 : hypothesisDistances hyps gt ≠ [] := by
    simp only [hypothesisDistances, ne_eq, List.map_eq_nil_iff]
    exact hne
  have hbmlt : bestMatch hyps gt < hyps.length := by
    have h := argminIdx_lt_length _ hne2
    rwa [hlen] at h
  have spec := argminIdx_spec (hypothesisDistances hyps gt) 0 j hne2 (by rwa [hlen])
  rw [show argminIdx (hypothesisDistances hyps gt) = bestMatch hyps gt from rfl] at spec
  have ebm : (hypothesisDistances hyps gt).getD (bestMatch hyps gt) 0
      = sqDistTraj (hyps.getD (bestMatch hyps gt) []) gt :=
    getD_map_of_lt _ hyps _ hbmlt [] 0
  have ej : (hypothesisDistances hyps gt).getD j 0 = sqDistTraj (hyps.getD j []) gt :=
    getD_map_of_lt _ hyps _ hj [] 0
  rw [ebm, ej] at spec
  exact ⟨spec.1, fun he => spec.2 (le_of_eq he)⟩

/-- Witness for C5 at the concrete two-hypothesis example, index 1. -/
theorem bestMatch_min_distance_and_stable_witness :
    sqDistTraj (exHyps.getD (bestMatch exHyps exGt) []) exGt
        ≤ sqDistTraj (exHyps.getD 1 []) exGt ∧
      (sqDistTraj (exHyps.getD 1 []) exGt
          = sqDistTraj (exHyps.getD (bestMatch exHyps exGt) []) exGt →
        bestMatch exHyps exGt ≤ 1) :=
  bestMatch_min_distance_and_stable exHyps exGt 1 (by simp [exHyps]) (by simp [exHyps])

/-- C6: for a fixed batch, doubling `mtp_alpha` doubles the contribution of
`reg_loss.mean()` to the objective returned by `training_step` while leaving
the classification term unchanged (main.py line 63). -/
theorem training_step_mtp_alpha_doubling (a : ℚ) (mtp_loss : MtpLossFn)
    (pred_cls : List (List ℚ)) (pred_trajectory : List (List (List Pt)))
    (labels : List (List Pt)) (batch_idx : ℕ) (v1 v2 : ℚ)
    (h1 : training_step a mtp_loss pred_cls pred_trajectory labels batch_idx = some v1)
    (h2 : training_step (2 * a) mtp_loss pred_cls pred_trajectory labels batch_idx = some v2) :
    v2 - (mtp_loss pred_cls pred_trajectory labels).1
      = 2 * (v1 - (mtp_loss pred_cls pred_trajectory labels).1) := by
  rw [training_step_some_eq _ _ _ _ _ _ _ h1, training_step_some_eq _ _ _ _ _ _ _ h2]
  ring

/-- Witness for C6 at a concrete batch: objectives 3 at alpha 1 and 5 at
alpha 2. -/
theorem training_step_mtp_alpha_doubling_witness :
    (5 : ℚ) - (wLoss wCls wTraj wLabels).1
      = 2 * ((3 : ℚ) - (wLoss wCls wTraj wLabels).1) :=
  training_step_mtp_alpha_doubling 1 wLoss wCls wTraj wLabels 1 3 5
    (by norm_num [training_step, wLoss, RegLoss.mean])
    (by norm_num [training_step, wLoss, RegLoss.mean])

/-- C7: the validation metric is a deterministic, stateless function of its
inputs: equal inputs give equal metrics, the module state is not mutated, and
the entries appended to the logger do not depend on the prior state
(main.py lines 71-89). -/
theorem validation_step_deterministic_and_stateless (s1 s2 : FullState)
    (c1 c2 : List (List ℚ)) (t1 t2 : List (List (List Pt))) (l1 l2 : List (List Pt))
    (hc : c1 = c2) (ht : t1 = t2) (hl : l1 = l2) :
    validation_step c1 t1 l1 = validation_step c2 t2 l2
    ∧ (validation_step_full s1 c1 t1 l1).module = s1.module
    ∧ (validation_step_full s1 c1 t1 l1).logger.drop s1.logger.length
        = (validation_step_full s2 c2 t2 l2).logger.drop s2.logger.length := by
  subst hc
  subst ht
  subst hl
  refine ⟨rfl, rfl, ?_⟩
  simp [validation_step_full, List.drop_left]

/-- Witness for C7 at a concrete state and batch. -/
theorem validation_step_deterministic_and_stateless_witness :
    validation_step wCls wTraj wLabels = validation_step wCls wTraj wLabels
    ∧ (validation_step_full wState wCls wTraj wLabels).module = wState.module
    ∧ (validation_step_full wState wCls wTraj wLabels).logger.drop wState.logger.length
        = (validation_step_full wState wCls wTraj wLabels).logger.drop wState.logger.length :=
  validation_step_deterministic_and_stateless wState wState wCls wCls wTraj wTraj
    wLabels wLabels rfl rfl rfl

/-- C8: for every non-empty batch, the validation classification accuracy lies
in the closed interval from 0 to 1 (main.py lines 74-87). -/
theorem validation_cls_acc_in_unit_interval (pred_cls : List (List ℚ))
    (pred_trajectory : List (List (List Pt))) (labels : List (List Pt))
    (hbs : 0 < pred_cls.length) :
    0 ≤ (validation_step pred_cls pred_trajectory labels).cls_acc ∧
      (validation_step pred_cls pred_trajectory labels).cls_acc ≤ 1 := by
  rw [validation_step_cls_acc_def]
  constructor
  · positivity
  · rw [div_le_one (by exact_mod_cast hbs)]
    have hsum :
        (List.zipWith (fun b p => if b = p then (1 : ℕ) else 0)
            (List.zipWith bestMatch pred_trajectory labels) (pred_cls.map argmaxIdx)).sum
          ≤ pred_cls.length := by
      have h := zipWith_sum_le_length (fun b p => if b = p then (1 : ℕ) else 0)
        (fun a b => by by_cases hab : a = b <;> simp [hab])
        (List.zipWith bestMatch pred_trajectory labels) (pred_cls.map argmaxIdx)
      simpa using h
    exact_mod_cast hsum

/-- Witness for C8 at a concrete one-example batch. -/
theorem validation_cls_acc_in_unit_interval_witness :
    0 ≤ (validation_step wCls wTraj wLabels).cls_acc ∧
      (validation_step wCls wTraj wLabels).cls_acc ≤ 1 :=
  validation_cls_acc_in_unit_interval wCls wTraj wLabels (by decide)

/-- C9: on every batch index divisible by 10 the plotting branch of
`training_step` indexes hypotheses 0, 1 and 2 unconditionally (main.py lines
50-57), so on a non-empty batch whose rows have M hypotheses the step
completes if and only if M is at least 3; with M below 3 it fails with an
out-of-bounds index error. -/
theorem training_step_plot_branch_requires_three_hypotheses (M : ℕ) (mtp_alpha : ℚ)
    (mtp_loss : MtpLossFn) (pred_cls : List (List ℚ))
    (pred_trajectory : List (List (List Pt))) (labels : List (List Pt)) (batch_idx : ℕ)
    (hplot : batch_idx % 10 = 0) (hB : pred_trajectory ≠ []) (hcB : pred_cls ≠ [])
    (hlB : labels ≠ [])
    (hrow : (pred_trajectory.getD 0 []).length = M)
    (hcrow : (pred_cls.getD 0 []).length = M) :
    (∃ v, training_step mtp_alpha mtp_loss pred_cls pred_trajectory labels batch_idx = some v)
      ↔ 3 ≤ M := by
  have hpa := plotAccess_eq pred_cls pred_trajectory labels hB hcB hlB
  rw [hrow, hcrow] at hpa
  by_cases h3 : 3 ≤ M
  · rw [if_pos ⟨h3, h3⟩] at hpa
    simp [training_step, hplot, hpa, h3]
  · rw [if_neg (by tauto)] at hpa
    simp [training_step, hplot, hpa, h3]

/-- Witness for C9 at a concrete non-empty batch with M = 3 and
`batch_idx = 0`. -/
theorem training_step_plot_branch_requires_three_hypotheses_witness :
    (∃ v, training_step 1 wLoss wCls3 wTraj3 wLabels 0 = some v) ↔ 3 ≤ 3 :=
  training_step_plot_branch_requires_three_hypotheses 3 1 wLoss wCls3 wTraj3 wLabels 0
    rfl (by simp [wTraj3]) (by simp [wCls3]) (by simp [wLabels]) rfl rfl

/-- C10: the constructor builds the MTP loss with the hard-coded
`distance_type='angle'` for every argument tuple (main.py line 25), never
`'l2'`, and no repository-defined command-line option exposes the distance
type (main.py lines 27-33 and 94-100). -/
theorem init_hardcodes_angle_distance_type :
    (∀ M num_pts mtp_alpha lr,
        (PlanningBaselineV0.init M num_pts mtp_alpha lr).mtp_loss.distance_type = "angle"
          ∧ (PlanningBaselineV0.init M num_pts mtp_alpha lr).mtp_loss.distance_type ≠ "l2")
      ∧ "--distance_type" ∉ main_parser_args :=
  ⟨fun _ _ _ _ => ⟨rfl, show ("angle" : String) ≠ "l2" by decide⟩, by decide⟩

end OpenpilotDeepdive
